import Mathlib

/-!
Shallow embedding of the `removenonorgmembers` cloud function and the
`exec` entry points of the security-response-automation repository.

Go strings are modelled as Lean `String`s; the `strings` package
operations used by the source (`strings.Contains`, `strings.HasPrefix`,
`strings.Split`) are embedded over the character list `String.data`.
Ordered Go slices are Lean `List`s.  Fallible collaborator calls are
modelled as `Except` results supplied as explicit stub functions, and
every embedded handler returns alongside its `error` result the ordered
trace of collaborator calls it made, so that "zero collaborator calls"
claims are statable.
-/

namespace SRA

namespace gostr

/-- One step of Go `strings.Contains`: whether `needle` occurs as a
contiguous run inside the character list. -/
def occursIn (needle : List Char) : List Char → Bool
  | [] => needle.isEmpty
  | c :: rest => needle.isPrefixOf (c :: rest) || occursIn needle rest

/-- Go `strings.Contains s substr`: reports whether `substr` is within `s`. -/
def Contains (s substr : String) : Bool :=
  occursIn substr.data s.data

/-- Go `strings.HasPrefix s pre`: whether `s` begins with `pre`. -/
def HasPre (s pre : String) : Bool :=
  pre.data.isPrefixOf s.data

/-- The empty needle occurs in every string, as in Go `strings.Contains(s, "") == true`. -/
theorem occursIn_nil : ∀ l : List Char, occursIn [] l = true
  | [] => rfl
  | _ :: _ => by simp [occursIn, List.isPrefixOf]

end gostr

/-- `cloudresourcemanager.Binding`: a role with its member list. -/
structure Binding where
  role : String
  members : List String
deriving DecidableEq, Repr

/-- `notWhitelisted` from the source: true when the member contains none of
the allow-listed domain substrings (the Go loop returns false on the first
`strings.Contains` hit). -/
def notWhitelisted (member : String) (domains : List String) : Bool :=
  domains.all fun d => !gostr.Contains member d

/-- `notFromOrg` from the source: the member has the given principal-type
marker at its start and does not contain `content`. -/
def notFromOrg (member pre content : String) : Bool :=
  gostr.HasPre member pre && !gostr.Contains member content

/-- `filterNonOrgMembers` from the source: the nested loop over bindings and
members, appending each member that passes `notFromOrg` and
`notWhitelisted`. -/
def filterNonOrgMembers (organizationDisplayName : String)
    (bindings : List Binding) (allowedDomains : List String) : List String :=
  bindings.foldl
    (fun nonOrgMembers b =>
      b.members.foldl
        (fun nonOrgMembers m =>
          if notFromOrg m "user:" organizationDisplayName && notWhitelisted m allowedDomains
          then nonOrgMembers ++ [m]
          else nonOrgMembers)
        nonOrgMembers)
    []

/-- The member-selection predicate of `filterNonOrgMembers`, factored out. -/
def selectedForRemoval (organizationDisplayName : String)
    (allowedDomains : List String) (m : String) : Bool :=
  notFromOrg m "user:" organizationDisplayName && notWhitelisted m allowedDomains

theorem foldl_push_eq_filter (p : String → Bool) :
    ∀ (l acc : List String),
      l.foldl (fun a m => if p m then a ++ [m] else a) acc = acc ++ l.filter p
  | [], acc => by simp
  | x :: xs, acc => by
    by_cases h : p x = true <;>
      simp [List.filter_cons, h, foldl_push_eq_filter p xs]

theorem foldl_bindings_eq_flatten (p : String → Bool) :
    ∀ (bs : List Binding) (acc : List String),
      bs.foldl (fun a b => b.members.foldl (fun a m => if p m then a ++ [m] else a) a) acc
        = acc ++ (bs.map fun b => b.members.filter p).flatten
  | [], acc => by simp
  | b :: bs, acc => by
    simp [foldl_push_eq_filter p b.members acc, foldl_bindings_eq_flatten p bs,
      List.append_assoc]

/-- Structural characterisation: the nested loop equals the concatenation, in
binding order, of each binding's member list filtered in member order. -/
theorem filterNonOrgMembers_eq_flatten (d : String) (bs : List Binding) (ad : List String) :
    filterNonOrgMembers d bs ad
      = (bs.map fun b => b.members.filter (selectedForRemoval d ad)).flatten := by
  have h := foldl_bindings_eq_flatten (selectedForRemoval d ad) bs []
  simpa [filterNonOrgMembers, selectedForRemoval] using h

/-- Membership characterisation of the removal set. -/
theorem mem_filterNonOrgMembers {d : String} {bs : List Binding} {ad : List String}
    {m : String} :
    m ∈ filterNonOrgMembers d bs ad
      ↔ ∃ b ∈ bs, m ∈ b.members ∧ selectedForRemoval d ad m = true := by
  rw [filterNonOrgMembers_eq_flatten]
  simp only [List.mem_flatten, List.mem_map]
  constructor
  · rintro ⟨l, ⟨b, hb, rfl⟩, hm⟩
    rcases List.mem_filter.mp hm with ⟨hmem, hp⟩
    exact ⟨b, hb, hmem, hp⟩
  · rintro ⟨b, hb, hmem, hp⟩
    exact ⟨b.members.filter (selectedForRemoval d ad), ⟨b, hb, rfl⟩,
      List.mem_filter.mpr ⟨hmem, hp⟩⟩

/-- Modelled from the spec: application of a RemovalSet to a policy's
bindings (the collaborator `RemoveMembersOrganization`, implemented outside
the embedded source file) "must remove matching members from every binding
while preserving role and condition structure; a binding left with zero
members is retained, not deleted". -/
def removeMembersFromBindings (removalSet : List String) (bindings : List Binding) :
    List Binding :=
  bindings.map fun b => { b with members := b.members.filter fun m => !removalSet.contains m }

/-- C1: a member is in the removal set computed by `filterNonOrgMembers` iff
it occurs in some binding, starts with the `user:` principal marker, does
not contain the organization's domain string, and contains no allow-listed
domain substring. -/
theorem filterNonOrgMembers_selects_iff (d : String) (bs : List Binding)
    (ad : List String) (m : String) :
    m ∈ filterNonOrgMembers d bs ad
      ↔ (∃ b ∈ bs, m ∈ b.members)
        ∧ gostr.HasPre m "user:" = true
        ∧ gostr.Contains m d = false
        ∧ ∀ a ∈ ad, gostr.Contains m a = false := by
  rw [mem_filterNonOrgMembers]
  simp only [selectedForRemoval, notFromOrg, notWhitelisted, Bool.and_eq_true,
    List.all_eq_true, Bool.not_eq_true']
  constructor
  · rintro ⟨b, hb, hmem, ⟨hp, hc⟩, hw⟩
    exact ⟨⟨b, hb, hmem⟩, hp, hc, hw⟩
  · rintro ⟨⟨b, hb, hmem⟩, hp, hc, hw⟩
    exact ⟨b, hb, hmem, ⟨hp, hc⟩, hw⟩

/-- C2: the worked example — organization domain `example.com`, allow-list
`[contractor.example.com]`, one `roles/owner` binding — yields exactly the
removal set `[user:eve@gmail.com]`. -/
theorem filterNonOrgMembers_worked_example :
    filterNonOrgMembers "example.com"
      [⟨"roles/owner",
        ["user:bob@example.com", "user:eve@gmail.com",
         "user:carl@contractor.example.com", "group:team@example.com"]⟩]
      ["contractor.example.com"]
      = ["user:eve@gmail.com"] := by decide

/-- C5: the removal set is the concatenation, in binding order, of each
binding's members filtered in member order by the selection predicate, so
qualifying occurrences (duplicates included) appear once per occurrence in
that order. -/
theorem filterNonOrgMembers_ordered_output (d : String) (bs : List Binding)
    (ad : List String) :
    filterNonOrgMembers d bs ad
      = (bs.map fun b => b.members.filter fun m =>
          notFromOrg m "user:" d && notWhitelisted m ad).flatten := by
  have h := filterNonOrgMembers_eq_flatten d bs ad
  simpa [selectedForRemoval] using h

/-- C10: with an empty organization display name every member contains the
empty domain string, so the removal set is empty for all bindings and
allow-lists. -/
theorem filterNonOrgMembers_empty_displayName (bs : List Binding) (ad : List String) :
    filterNonOrgMembers "" bs ad = [] := by
  rw [filterNonOrgMembers_eq_flatten]
  have hsel : ∀ m : String, selectedForRemoval "" ad m = false := by
    intro m
    simp [selectedForRemoval, notFromOrg, gostr.Contains,
      show ("" : String).data = [] from rfl, gostr.occursIn_nil]
  have hf : ∀ b : Binding, b.members.filter (selectedForRemoval "" ad) = [] := by
    intro b
    exact List.filter_eq_nil_iff.mpr fun a _ => by simp [hsel a]
  induction bs with
  | nil => rfl
  | cons b bs ih => simp only [List.map_cons, List.flatten_cons, hf b,
      List.nil_append]; simpa using ih

/-- C3: removing the computed removal set from every binding and recomputing
the diff with the same organization name and allow-list yields the empty
removal set. -/
theorem filterNonOrgMembers_idempotent (d : String) (bs : List Binding)
    (ad : List String) :
    filterNonOrgMembers d
      (removeMembersFromBindings (filterNonOrgMembers d bs ad) bs) ad = [] := by
  rw [List.eq_nil_iff_forall_not_mem]
  intro m hm
  rcases mem_filterNonOrgMembers.mp hm with ⟨b', hb', hmem, hsel⟩
  rcases List.mem_map.mp hb' with ⟨b, hb, rfl⟩
  rcases List.mem_filter.mp hmem with ⟨hmemb, hnc⟩
  have hin : m ∈ filterNonOrgMembers d bs ad :=
    mem_filterNonOrgMembers.mpr ⟨b, hb, hmemb, hsel⟩
  rw [Bool.not_eq_true'] at hnc
  have helem : List.elem m (filterNonOrgMembers d bs ad) = true :=
    List.elem_iff.mpr hin
  have hco : (filterNonOrgMembers d bs ad).contains m = true := helem
  rw [hnc] at hco
  exact Bool.false_ne_true hco

theorem exists_member_iff_of_forall₂ (d : String) (ad : List String) (m : String) :
    ∀ {l₁ l₂ : List Binding},
      List.Forall₂ (fun b c => b.role = c.role ∧ b.members.Perm c.members) l₁ l₂ →
      ((∃ b ∈ l₁, m ∈ b.members ∧ selectedForRemoval d ad m = true)
        ↔ ∃ b ∈ l₂, m ∈ b.members ∧ selectedForRemoval d ad m = true) := by
  intro l₁ l₂ h
  induction h with
  | nil => simp
  | cons hbc _ ih =>
    simp only [List.mem_cons]
    constructor
    · rintro ⟨x, hx | hx, hmx, hs⟩
      · subst hx
        exact ⟨_, Or.inl rfl, hbc.2.mem_iff.mp hmx, hs⟩
      · rcases ih.mp ⟨x, hx, hmx, hs⟩ with ⟨y, hy, hmy, hs'⟩
        exact ⟨y, Or.inr hy, hmy, hs'⟩
    · rintro ⟨x, hx | hx, hmx, hs⟩
      · subst hx
        exact ⟨_, Or.inl rfl, hbc.2.mem_iff.mpr hmx, hs⟩
      · rcases ih.mpr ⟨x, hx, hmx, hs⟩ with ⟨y, hy, hmy, hs'⟩
        exact ⟨y, Or.inr hy, hmy, hs'⟩

/-- C4: permuting the bindings sequence and, binding by binding, permuting
each member list never changes which members the diff selects — only the
output order may differ. -/
theorem filterNonOrgMembers_perm_insensitive (d : String) (ad : List String)
    (bs₁ mid bs₂ : List Binding)
    (hperm : bs₁.Perm mid)
    (hmm : List.Forall₂ (fun b c => b.role = c.role ∧ b.members.Perm c.members) mid bs₂)
    (m : String) :
    (m ∈ filterNonOrgMembers d bs₁ ad) ↔ (m ∈ filterNonOrgMembers d bs₂ ad) := by
  rw [mem_filterNonOrgMembers, mem_filterNonOrgMembers]
  have hstep : (∃ b ∈ bs₁, m ∈ b.members ∧ selectedForRemoval d ad m = true)
      ↔ ∃ b ∈ mid, m ∈ b.members ∧ selectedForRemoval d ad m = true := by
    constructor
    · rintro ⟨b, hb, h⟩; exact ⟨b, hperm.mem_iff.mp hb, h⟩
    · rintro ⟨b, hb, h⟩; exact ⟨b, hperm.mem_iff.mpr hb, h⟩
  exact hstep.trans (exists_member_iff_of_forall₂ d ad m hmm)

/-- Concrete instantiation of the permutation-insensitivity theorem: two
bindings swapped and one member list reversed. -/
theorem filterNonOrgMembers_perm_insensitive_witness :
    ("user:a@z.io" ∈ filterNonOrgMembers "org.example"
        [⟨"roles/owner", ["user:a@z.io", "user:b@z.io"]⟩,
         ⟨"roles/viewer", ["user:c@z.io"]⟩] [])
      ↔ ("user:a@z.io" ∈ filterNonOrgMembers "org.example"
        [⟨"roles/viewer", ["user:c@z.io"]⟩,
         ⟨"roles/owner", ["user:b@z.io", "user:a@z.io"]⟩] []) :=
  filterNonOrgMembers_perm_insensitive "org.example" []
    [⟨"roles/owner", ["user:a@z.io", "user:b@z.io"]⟩,
     ⟨"roles/viewer", ["user:c@z.io"]⟩]
    [⟨"roles/viewer", ["user:c@z.io"]⟩,
     ⟨"roles/owner", ["user:a@z.io", "user:b@z.io"]⟩]
    [⟨"roles/viewer", ["user:c@z.io"]⟩,
     ⟨"roles/owner", ["user:b@z.io", "user:a@z.io"]⟩]
    (by decide)
    (List.Forall₂.cons ⟨rfl, by decide⟩
      (List.Forall₂.cons ⟨rfl, by decide⟩ List.Forall₂.nil))
    "user:a@z.io"

/-- Go error values as produced by the source: `fmt.Errorf` / raw messages,
the `entities` sentinel errors (modelled from the spec: the `entities`
package is outside the embedded file), and `errors.Wrap`/`errors.Wrapf`
decoration, which keeps the context message and the wrapped cause. -/
inductive GoErr where
  | errUnmarshal : GoErr
  | errValueNotFound : GoErr
  | raw : String → GoErr
  | wrapped : String → GoErr → GoErr
deriving DecidableEq, Repr

/-- The rendered message of an error, as `pkg/errors` prints a wrapped
error: context, colon, cause. -/
def GoErr.message : GoErr → String
  | .errUnmarshal => "unable to unmarshal"
  | .errValueNotFound => "value not found"
  | .raw s => s
  | .wrapped ctx cause => ctx ++ ": " ++ cause.message

/-- `Required` from the source: the values `ReadFinding` extracts. -/
structure Required where
  organizationName : String
deriving DecidableEq, Repr

/-- The finding fields read by `ReadFinding` from the decoded
`pb.IamScanner` payload: the nested category and the parent resource path
(`finding.GetFinding().GetCategory()` / `.GetParent()`). -/
structure IamScanner where
  category : String
  parent : String
deriving DecidableEq, Repr

/-- `ReadFinding` from the source.  Modelled from the spec: the JSON
decoding of the raw payload (`json.Unmarshal` into `pb.IamScanner`) and
`sha.OrganizationName` live outside the embedded file, so they enter as
explicit arguments — `unmarshal` is the decode result of the payload
(`Except.error` carries the decoder's message) and `shaOrganizationName`
derives an organization name from the finding's parent path.  The function
is a pure function of these inputs. -/
def ReadFinding (unmarshal : Except String IamScanner)
    (shaOrganizationName : String → String) : Except GoErr Required :=
  match unmarshal with
  | .error errMsg => .error (.wrapped errMsg GoErr.errUnmarshal)
  | .ok finding =>
    let r : Required :=
      if finding.category = "NON_ORG_IAM_MEMBER" then ⟨shaOrganizationName finding.parent⟩
      else ⟨""⟩
    if r.organizationName = "" then .error GoErr.errValueNotFound
    else .ok r

/-- `cloudresourcemanager.Organization`: resource name and display name. -/
structure Organization where
  name : String
  displayName : String
deriving DecidableEq, Repr

/-- `cloudresourcemanager.Policy`: the binding list read by `Execute`. -/
structure Policy where
  bindings : List Binding
deriving DecidableEq, Repr

/-- The `Resource` collaborator consumed by `Execute`, as a deterministic
stub: each operation maps its arguments to an `Except` outcome. -/
structure Resource where
  organization : String → Except GoErr Organization
  policyOrganization : String → Except GoErr Policy
  removeMembersOrganization : String → List String → Policy → Except GoErr Policy

/-- The `RemoveNonOrgMembers` rule configuration read by `Execute`. -/
structure RemoveNonOrgMembersConfig where
  enabled : Bool
  allowDomains : List String

/-- `entities.Configuration`, restricted to the field `Execute` reads. -/
structure Configuration where
  removeNonOrgMembers : RemoveNonOrgMembersConfig

/-- `entities.Entity`: configuration plus the Resource collaborator. -/
structure Entity where
  configuration : Configuration
  resource : Resource

/-- One collaborator call made by `Execute`, with its arguments. -/
inductive ResCall where
  | organizationCall : String → ResCall
  | policyOrganizationCall : String → ResCall
  | removeMembersOrganizationCall : String → List String → ResCall
deriving DecidableEq, Repr

/-- `Execute` from the source, returning the Go error result (`none` is a
nil error) paired with the ordered trace of Resource collaborator calls it
made. -/
def Execute (required : Required) (ent : Entity) : Option GoErr × List ResCall :=
  let conf := ent.configuration
  if conf.removeNonOrgMembers.enabled then
    let allowedDomains := conf.removeNonOrgMembers.allowDomains
    match ent.resource.organization required.organizationName with
    | .error err =>
        (some (.wrapped ("failed to get organization: " ++ required.organizationName) err),
         [ResCall.organizationCall required.organizationName])
    | .ok organization =>
      match ent.resource.policyOrganization organization.name with
      | .error err =>
          (some (.wrapped "failed to retrieve organization policies" err),
           [ResCall.organizationCall required.organizationName,
            ResCall.policyOrganizationCall organization.name])
      | .ok policy =>
        let membersToRemove :=
          filterNonOrgMembers organization.displayName policy.bindings allowedDomains
        match ent.resource.removeMembersOrganization organization.name membersToRemove policy with
        | .error err =>
            (some (.wrapped "failed to remove organization policies" err),
             [ResCall.organizationCall required.organizationName,
              ResCall.policyOrganizationCall organization.name,
              ResCall.removeMembersOrganizationCall organization.name membersToRemove])
        | .ok _ =>
            (none,
             [ResCall.organizationCall required.organizationName,
              ResCall.policyOrganizationCall organization.name,
              ResCall.removeMembersOrganizationCall organization.name membersToRemove])
  else (none, [])

/-- The environment variables `RevokeExternalGrantsFolders` reads with
`os.Getenv`. -/
structure Env where
  folder_ids : String
  disallowed : String
deriving DecidableEq, Repr

/-- One client construction or downstream call made by
`RevokeExternalGrantsFolders`, in order. -/
inductive ClientCall where
  | newLogger : ClientCall
  | newCloudResourceManager : ClientCall
  | newStorage : ClientCall
  | revokeCF : List String → List String → ClientCall
deriving DecidableEq, Repr

/-- The client constructors and the downstream
`cloudfunctions.RevokeExternalGrantsFolders` call consumed by the entry
point, as deterministic stubs. -/
structure RevokeClients where
  newLogger : Except GoErr Unit
  newCloudResourceManager : Except GoErr Unit
  newStorage : Except GoErr Unit
  revokeCF : List String → List String → Option GoErr

/-- `RevokeExternalGrantsFolders` from the source: logger first, then the
two environment-variable gates, then the resource-manager and storage
clients, then the downstream cloud function with the comma-split lists.
Returns the Go error result paired with the ordered call trace. -/
def RevokeExternalGrantsFolders (env : Env) (cl : RevokeClients) :
    Option GoErr × List ClientCall :=
  match cl.newLogger with
  | .error err =>
      (some (.wrapped "failed to initialize logger client" err), [ClientCall.newLogger])
  | .ok _ =>
    if env.folder_ids = "" then
      (some (.raw "folder_ids environment variable not found"), [ClientCall.newLogger])
    else if env.disallowed = "" then
      (some (.raw "disallowed environment variable not found"), [ClientCall.newLogger])
    else
      match cl.newCloudResourceManager with
      | .error err =>
          (some (.wrapped "failed to initialize cloud resource manager client" err),
           [ClientCall.newLogger, ClientCall.newCloudResourceManager])
      | .ok _ =>
        match cl.newStorage with
        | .error err =>
            (some (.wrapped "failed to initialize storage client" err),
             [ClientCall.newLogger, ClientCall.newCloudResourceManager,
              ClientCall.newStorage])
        | .ok _ =>
          let ids := env.folder_ids.splitOn ","
          let d := env.disallowed.splitOn ","
          (cl.revokeCF ids d,
           [ClientCall.newLogger, ClientCall.newCloudResourceManager,
            ClientCall.newStorage, ClientCall.revokeCF ids d])

/-- C6: with the rule's enabled flag false, `Execute` returns a nil error
and makes no Resource collaborator call. -/
theorem execute_disabled_noop (required : Required) (ent : Entity)
    (h : ent.configuration.removeNonOrgMembers.enabled = false) :
    Execute required ent = (none, []) := by
  simp [Execute, h]

/-- Concrete instantiation of the disabled-rule theorem. -/
theorem execute_disabled_noop_witness :
    Execute ⟨"organizations/1"⟩
      ⟨⟨⟨false, ["allowed.example"]⟩⟩,
       ⟨fun _ => .ok ⟨"organizations/1", "example.com"⟩,
        fun _ => .ok ⟨[]⟩,
        fun _ _ _ => .ok ⟨[]⟩⟩⟩ = (none, []) :=
  execute_disabled_noop _ _ rfl

/-- C7 counterexample: an enabled rule whose allow-list is absent (empty)
does not fail with a configuration error — `Execute` proceeds and makes all
three collaborator calls, returning a nil error. -/
theorem execute_missing_allowlist_proceeds :
    Execute ⟨"organizations/42"⟩
      ⟨⟨⟨true, []⟩⟩,
       ⟨fun _ => .ok ⟨"organizations/42", "example.com"⟩,
        fun _ => .ok ⟨[]⟩,
        fun _ _ _ => .ok ⟨[]⟩⟩⟩
      = (none,
         [ResCall.organizationCall "organizations/42",
          ResCall.policyOrganizationCall "organizations/42",
          ResCall.removeMembersOrganizationCall "organizations/42" []]) := rfl

/-- C7 amended: the `RevokeExternalGrantsFolders` entry point is the place
with a required-parameter gate — once its logger is initialized, an empty
`folder_ids` or `disallowed` environment variable yields a configuration
error with no resource-manager, storage, or downstream call; `Execute`
itself performs no allow-list presence check. -/
theorem revoke_missing_param_fails_fast (env : Env) (cl : RevokeClients)
    (hl : cl.newLogger = .ok ())
    (h : env.folder_ids = "" ∨ env.disallowed = "") :
    (∃ msg, (RevokeExternalGrantsFolders env cl).1 = some (.raw msg)) ∧
    (RevokeExternalGrantsFolders env cl).2 = [ClientCall.newLogger] := by
  by_cases hf : env.folder_ids = ""
  · exact ⟨⟨"folder_ids environment variable not found",
      by simp [RevokeExternalGrantsFolders, hl, hf]⟩,
      by simp [RevokeExternalGrantsFolders, hl, hf]⟩
  · have hd : env.disallowed = "" := h.resolve_left hf
    exact ⟨⟨"disallowed environment variable not found",
      by simp [RevokeExternalGrantsFolders, hl, hf, hd]⟩,
      by simp [RevokeExternalGrantsFolders, hl, hf, hd]⟩

/-- Concrete instantiation of the fail-fast theorem: empty `folder_ids`. -/
theorem revoke_missing_param_fails_fast_witness :
    (∃ msg, (RevokeExternalGrantsFolders ⟨"", "evil.com"⟩
        ⟨.ok (), .ok (), .ok (), fun _ _ => none⟩).1 = some (.raw msg)) ∧
    (RevokeExternalGrantsFolders ⟨"", "evil.com"⟩
        ⟨.ok (), .ok (), .ok (), fun _ _ => none⟩).2 = [ClientCall.newLogger] :=
  revoke_missing_param_fails_fast ⟨"", "evil.com"⟩
    ⟨.ok (), .ok (), .ok (), fun _ _ => none⟩ rfl (Or.inl rfl)

/-- C8 counterexample: when the policy fetch fails, the returned error is
wrapped with the fixed context `failed to retrieve organization policies`,
whose rendered message does not contain the organization identifier
`organizations/123`. -/
theorem execute_wrap_no_org_identifier :
    (Execute ⟨"organizations/123"⟩
        ⟨⟨⟨true, []⟩⟩,
         ⟨fun _ => .ok ⟨"organizations/123", "example.com"⟩,
          fun _ => .error (.raw "boom"),
          fun _ _ _ => .ok ⟨[]⟩⟩⟩).1
      = some (.wrapped "failed to retrieve organization policies" (.raw "boom"))
    ∧ gostr.Contains
        (GoErr.message (.wrapped "failed to retrieve organization policies" (.raw "boom")))
        "organizations/123" = false :=
  ⟨rfl, by decide⟩

/-- C8 amended: a policy-fetch failure is returned wrapped with the fixed
context `failed to retrieve organization policies`, an update failure with
the fixed context `failed to remove organization policies` (the
organization identifier appears only in the organization-lookup wrap), and
in both cases `Execute` stops — the trace ends at the failing call. -/
theorem execute_wraps_collaborator_errors (required : Required) (ent : Entity)
    (org : Organization) (e : GoErr)
    (hen : ent.configuration.removeNonOrgMembers.enabled = true)
    (horg : ent.resource.organization required.organizationName = .ok org) :
    (ent.resource.policyOrganization org.name = .error e →
      Execute required ent
        = (some (.wrapped "failed to retrieve organization policies" e),
           [ResCall.organizationCall required.organizationName,
            ResCall.policyOrganizationCall org.name])) ∧
    (∀ policy : Policy, ent.resource.policyOrganization org.name = .ok policy →
      ent.resource.removeMembersOrganization org.name
          (filterNonOrgMembers org.displayName policy.bindings
            ent.configuration.removeNonOrgMembers.allowDomains) policy = .error e →
      Execute required ent
        = (some (.wrapped "failed to remove organization policies" e),
           [ResCall.organizationCall required.organizationName,
            ResCall.policyOrganizationCall org.name,
            ResCall.removeMembersOrganizationCall org.name
              (filterNonOrgMembers org.displayName policy.bindings
                ent.configuration.removeNonOrgMembers.allowDomains)])) := by
  constructor
  · intro hp
    simp [Execute, hen, horg, hp]
  · intro policy hp hr
    simp [Execute, hen, horg, hp, hr]

/-- Concrete instantiation of the error-wrapping theorem: a failing policy
fetch. -/
theorem execute_wraps_collaborator_errors_witness :
    Execute ⟨"organizations/9"⟩
      ⟨⟨⟨true, []⟩⟩,
       ⟨fun _ => .ok ⟨"organizations/9", "org.example"⟩,
        fun _ => .error (.raw "down"),
        fun _ _ _ => .ok ⟨[]⟩⟩⟩
      = (some (.wrapped "failed to retrieve organization policies" (.raw "down")),
         [ResCall.organizationCall "organizations/9",
          ResCall.policyOrganizationCall "organizations/9"]) :=
  (execute_wraps_collaborator_errors ⟨"organizations/9"⟩
    ⟨⟨⟨true, []⟩⟩,
     ⟨fun _ => .ok ⟨"organizations/9", "org.example"⟩,
      fun _ => .error (.raw "down"),
      fun _ _ _ => .ok ⟨[]⟩⟩⟩
    ⟨"organizations/9", "org.example"⟩ (.raw "down") rfl rfl).1 rfl

/-- C9: `ReadFinding` wraps the sentinel unmarshal error with the decoder's
message whenever the payload does not decode, and returns the
value-not-found sentinel whenever the decoded finding's category is not
`NON_ORG_IAM_MEMBER` or the extracted organization name is empty; it is a
pure function of the decode result. -/
theorem readFinding_error_cases (u : Except String IamScanner)
    (shaOrganizationName : String → String) :
    (∀ msg, u = .error msg →
      ReadFinding u shaOrganizationName = .error (.wrapped msg GoErr.errUnmarshal)) ∧
    (∀ finding, u = .ok finding → finding.category ≠ "NON_ORG_IAM_MEMBER" →
      ReadFinding u shaOrganizationName = .error GoErr.errValueNotFound) ∧
    (∀ finding, u = .ok finding → shaOrganizationName finding.parent = "" →
      ReadFinding u shaOrganizationName = .error GoErr.errValueNotFound) := by
  refine ⟨?_, ?_, ?_⟩
  · rintro msg rfl
    rfl
  · rintro finding rfl hcat
    simp [ReadFinding, hcat]
  · rintro finding rfl hname
    by_cases hcat : finding.category = "NON_ORG_IAM_MEMBER" <;>
      simp [ReadFinding, hcat, hname]

/-- Concrete instantiation of the `ReadFinding` error-case theorem: an
undecodable payload. -/
theorem readFinding_error_cases_witness :
    ReadFinding (.error "unexpected end of JSON input") (fun _ => "")
      = .error (.wrapped "unexpected end of JSON input" GoErr.errUnmarshal) :=
  (readFinding_error_cases (.error "unexpected end of JSON input") (fun _ => "")).1
    "unexpected end of JSON input" rfl

end SRA
